import Mathlib

/-
Verification development for analyze_metrics.py: a sequential polling loop
that queries a Prometheus backend for four fixed metric expressions, builds
a time series per metric, forwards each series to the Nixtla (TimeGPT)
analysis service, republishes derived metrics (a request counter, a latency
forecast gauge, an anomaly counter) and renders a plain-text summary.

The embedding is shallow: every function of the source file becomes a Lean
definition over explicit data; the process-external world (HTTP responses,
analysis-service answers, write success) is an explicit environment
argument; Python exceptions become constructors of result types, separating
the exception classes the source catches from those it does not.
-/

namespace Monitoring

/-- UTC instant, modelled as rational seconds since the Unix epoch. -/
structure UTCTime where
  sec : ℚ
deriving DecidableEq

/-- Python datetime.datetime.fromtimestamp(t, tz=datetime.timezone.utc). -/
def fromtimestamp (t : ℚ) : UTCTime := ⟨t⟩

/-- A JSON scalar as it can appear inside a sample array of a Prometheus
    range-query response, recorded by how Python float() treats it:
    a JSON number (or boolean) always converts; a JSON string converts
    exactly when it spells a number (field parsed: its numeric value, or
    none when float() raises ValueError); a JSON null, array or object makes
    float() raise TypeError. -/
inductive JScalar
  | num (q : ℚ)
  | str (parsed : Option ℚ)
  | null
deriving DecidableEq

/-- Outcome of Python float() on one JSON scalar. -/
inductive FloatRes
  | ok (q : ℚ)
  | valueError
  | typeError
deriving DecidableEq

/-- Python float() on a JSON scalar (see JScalar). -/
def pyFloat : JScalar → FloatRes
  | .num q => .ok q
  | .str (some q) => .ok q
  | .str none => .valueError
  | .null => .typeError

/-- Outcome of evaluating float(item[k]) for one sample: a value, an
    exception the source catches (IndexError from item[k] out of range,
    ValueError from float on a non-numeric string — both in the except
    tuple of prepare_timeseries, as is KeyError), or an exception it does
    not catch (TypeError from float on null/array/object). -/
inductive FieldRes
  | ok (q : ℚ)
  | caught
  | uncaught
deriving DecidableEq

/-- float(item[k]) for a sample array item. -/
def parseField (item : List JScalar) (k : ℕ) : FieldRes :=
  match item.get? k with
  | none => .caught
  | some s =>
    match pyFloat s with
    | .ok q => .ok q
    | .valueError => .caught
    | .typeError => .uncaught

/-- Outcome of one full list comprehension over the samples. -/
inductive ColRes
  | ok (qs : List ℚ)
  | caught
  | uncaught
deriving DecidableEq

/-- One of the two list comprehensions in prepare_timeseries: apply
    float(item[k]) to every sample in order; the first raising sample
    determines the exception of the whole comprehension. -/
def parseColumn : List (List JScalar) → ℕ → ColRes
  | [], _ => .ok []
  | item :: rest, k =>
    match parseField item k with
    | .ok q =>
      match parseColumn rest k with
      | .ok qs => .ok (q :: qs)
      | .caught => .caught
      | .uncaught => .uncaught
    | .caught => .caught
    | .uncaught => .uncaught

/-- One series object of a range-query result. The values field is none
    when the series object has no values key, in which case the subscript
    in prepare_timeseries raises KeyError (caught). -/
structure RawSeries where
  values : Option (List (List JScalar))
deriving DecidableEq

/-- The data field of a response body; result is none when the result key
    is missing, so that data.get('data', ...).get('result', []) yields []. -/
structure DataField where
  result : Option (List RawSeries)
deriving DecidableEq

/-- A parsed, truthy (non-empty-dict) Prometheus response body; data is
    none when the top-level data key is missing. -/
structure Body where
  data : Option DataField
deriving DecidableEq

/-- What query_prometheus returns and prepare_timeseries consumes: the
    falsy empty dict, or a parsed non-empty body. -/
inductive RawResult
  | empty
  | ok (body : Body)
deriving DecidableEq

/-- The environment's answer to one requests.get call: either a raised
    requests.RequestException (connection error or timeout), or an HTTP
    response carrying a status code and the JSON parse of its body (none
    models a body on which response.json() raises
    requests.exceptions.JSONDecodeError, itself a RequestException and
    hence caught by the source). -/
inductive HttpOutcome
  | exn
  | status (code : ℕ) (body : Option Body)
deriving DecidableEq

/-- response.raise_for_status() of the requests library raises HTTPError
    exactly when 400 <= status_code < 600. -/
def raisesForStatus (code : ℕ) : Bool := decide (400 ≤ code) && decide (code < 600)

/-- query_prometheus (source lines 38-58): returns {} on any
    requests.RequestException — network error, timeout, HTTPError from
    raise_for_status on a 4xx/5xx status, JSON decode failure — and on a
    body missing the top-level data key; otherwise returns the parsed body.
    The query text, window and step only shape the outgoing request, whose
    answer is the HttpOutcome argument. -/
def query_prometheus (query : String) (start_time end_time : UTCTime)
    (resp : HttpOutcome) (step : String) : RawResult :=
  match resp with
  | .exn => .empty
  | .status code body =>
    if raisesForStatus code then .empty
    else
      match body with
      | none => .empty
      | some b =>
        match b.data with
        | none => .empty
        | some _ => .ok b

/-- The DataFrame built by prepare_timeseries: column ds of UTC timestamps
    and column y of float values. -/
structure TimeSeries where
  ds : List UTCTime
  y : List ℚ
deriving DecidableEq

/-- Result of prepare_timeseries: a DataFrame, the Python value None
    (no data, no result series, or a caught IndexError/KeyError/ValueError),
    or an uncaught exception (TypeError) escaping to the caller. -/
inductive PrepRes
  | series (df : TimeSeries)
  | noSeries
  | raised
deriving DecidableEq

/-- prepare_timeseries (source lines 60-74): keep only the first result
    series, build the timestamp column then the value column; IndexError,
    KeyError and ValueError are caught and yield None, a TypeError
    propagates. -/
def prepare_timeseries (data : RawResult) (metric : String) : PrepRes :=
  match data with
  | .empty => .noSeries
  | .ok body =>
    match (match body.data with | none => [] | some d => d.result.getD []) with
    | [] => .noSeries
    | r0 :: _ =>
      match r0.values with
      | none => .noSeries
      | some vals =>
        match parseColumn vals 0 with
        | .caught => .noSeries
        | .uncaught => .raised
        | .ok ts =>
          match parseColumn vals 1 with
          | .caught => .noSeries
          | .uncaught => .raised
          | .ok ys => .series ⟨ts.map fromtimestamp, ys⟩

example : parseField [JScalar.num 3, JScalar.str (some 2)] 1 = .ok 2 := by decide

example :
    prepare_timeseries
      (.ok ⟨some ⟨some [⟨some [[JScalar.num 10, JScalar.str (some 2)]]⟩]⟩⟩) "latency"
      = .series ⟨[fromtimestamp 10], [2]⟩ := by decide

example :
    prepare_timeseries
      (.ok ⟨some ⟨some [⟨some [[JScalar.num 10, JScalar.str none]]⟩]⟩⟩) "latency"
      = .noSeries := by decide

example :
    prepare_timeseries
      (.ok ⟨some ⟨some [⟨some [[JScalar.num 10, JScalar.null]]⟩]⟩⟩) "latency"
      = .raised := by decide

example :
    query_prometheus "up" (fromtimestamp 0) (fromtimestamp 60) (.status 500 (some ⟨some ⟨some []⟩⟩)) "15s"
      = .empty := by decide

/-- Outcome of one call to the external analysis service (the environment's
    side of nixtla_client.forecast and nixtla_client.detect_anomalies):
    raised covers any exception the call throws. -/
inductive SvcRes (α : Type)
  | raised
  | ok (a : α)
deriving DecidableEq

/-- Whether the service call raised. -/
def SvcRes.isRaised {α : Type} : SvcRes α → Bool
  | .raised => true
  | .ok _ => false

/-- One cycle's behaviour of the process-external world for a single metric:
    the answer to the Prometheus query, the TimeGPT column of the frame
    returned by nixtla_client.forecast (or its exception), and the boolean
    anomaly column returned by nixtla_client.detect_anomalies (or its
    exception). -/
structure MetricEnv where
  http : HttpOutcome
  forecast : SvcRes (List ℚ)
  anomalies : SvcRes (List Bool)
deriving DecidableEq

/-- Whether either analysis-service call for this metric raises. -/
def serviceRaised (menv : MetricEnv) : Bool :=
  menv.forecast.isRaised || menv.anomalies.isRaised

/-- pandas Series.mean over the TimeGPT forecast column,
    forecast['TimeGPT'].mean(). -/
def seriesMean (l : List ℚ) : ℚ := l.sum / l.length

/-- One entry of the analysis_results dict: the forecast mean and the
    anomaly count of a successfully analyzed metric. -/
structure AnalysisResult where
  forecast : ℚ
  anomalies : ℕ
deriving DecidableEq

/-- The latency query expression (source line 83). -/
def latencyQuery : String :=
  "avg(rate(http_server_requests_seconds_sum\x7bapplication=\"user-system\"\x7d[5m]) / rate(http_server_requests_seconds_count\x7bapplication=\"user-system\"\x7d[5m]))"

/-- The error-rate query expression (source line 84). -/
def errorRateQuery : String :=
  "rate(http_server_requests_seconds_count\x7bapplication=\"user-system\",outcome=\"SERVER_ERROR\"\x7d[5m])"

/-- The heap-usage query expression (source line 85). -/
def heapUsageQuery : String :=
  "jvm_memory_used_bytes\x7bapplication=\"user-system\",area=\"heap\"\x7d"

/-- The gc-pauses query expression (source line 86). -/
def gcPausesQuery : String :=
  "rate(jvm_gc_pause_seconds_sum\x7bapplication=\"user-system\"\x7d[5m])"

/-- The queries dict of analyze_metrics, in insertion (= iteration) order. -/
def queries : List (String × String) :=
  [("latency", latencyQuery), ("error_rate", errorRateQuery),
   ("heap_usage", heapUsageQuery), ("gc_pauses", gcPausesQuery)]

/-- Result of the per-metric part of the loop body of analyze_metrics:
    the metric was skipped this cycle (None from prepare_timeseries, or an
    exception from either analysis-service call caught by the per-metric
    try), analyzed successfully, or an uncaught exception escaped
    prepare_timeseries (aborting the whole cycle, since the call on source
    line 92 sits outside the per-metric try). -/
inductive PMRes
  | skip
  | success (r : AnalysisResult)
  | raised
deriving DecidableEq

/-- Whether this metric was analyzed successfully this cycle. -/
def PMRes.isSuccess : PMRes → Bool
  | .success _ => true
  | _ => false

/-- The forecast mean of a successful analysis, or a fallback. -/
def PMRes.forecastOr (p : PMRes) (old : ℚ) : ℚ :=
  match p with
  | .success r => r.forecast
  | _ => old

/-- The loop body of analyze_metrics for one metric (source lines 90-110),
    up to but excluding the published-metrics updates: query Prometheus,
    build the series, continue on None, else run forecast then anomaly
    detection, catching any service exception. -/
def processMetric (menv : MetricEnv) (metric query : String)
    (start_time end_time : UTCTime) : PMRes :=
  match prepare_timeseries (query_prometheus query start_time end_time menv.http "15s") metric with
  | .raised => .raised
  | .noSeries => .skip
  | .series _df =>
    match menv.forecast with
    | .raised => .skip
    | .ok fc =>
      match menv.anomalies with
      | .raised => .skip
      | .ok flags => .success ⟨seriesMean fc, flags.count true⟩

/-- The three process-wide published metrics: the ANALYSIS_REQUESTS counter,
    the LATENCY_FORECAST gauge and the ANOMALY_COUNT counter. -/
structure Metrics where
  analysis_requests : ℕ
  latency_forecast : ℚ
  anomaly_count : ℕ
deriving DecidableEq

/-- The published-metrics updates on a successful analysis (source lines
    106-108): set the latency gauge when the metric is latency, then add the
    anomaly count to the anomaly counter. -/
def applyUpdates (metric : String) (r : AnalysisResult) (m : Metrics) : Metrics :=
  let m1 := if metric = "latency" then { m with latency_forecast := r.forecast } else m
  { m1 with anomaly_count := m1.anomaly_count + r.anomalies }

/-- Outcome of the per-metric loop over a list of queries: completed with
    the analysis_results entries in insertion order and the updated
    published metrics, or aborted by an uncaught exception — in which case
    the entries accumulated so far and the published metrics already
    updated are retained. -/
inductive RunRes
  | done (results : List (String × AnalysisResult)) (m : Metrics)
  | raised (results : List (String × AnalysisResult)) (m : Metrics)
deriving DecidableEq

/-- The analysis_results entries present when the loop stopped. -/
def RunRes.results : RunRes → List (String × AnalysisResult)
  | .done res _ => res
  | .raised res _ => res

/-- The published metrics when the loop stopped. -/
def RunRes.state : RunRes → Metrics
  | .done _ m => m
  | .raised _ m => m

/-- Whether the loop was aborted by an uncaught exception. -/
def RunRes.isRaised : RunRes → Bool
  | .done _ _ => false
  | .raised _ _ => true

/-- The per-metric loop of analyze_metrics (source lines 90-110) over an
    arbitrary query table. -/
def runMetrics (env : String → MetricEnv) (s e : UTCTime) :
    List (String × String) → Metrics → RunRes
  | [], m => .done [] m
  | (metric, q) :: rest, m =>
    match processMetric (env metric) metric q s e with
    | .raised => .raised [] m
    | .skip => runMetrics env s e rest m
    | .success r =>
      match runMetrics env s e rest (applyUpdates metric r m) with
      | .done res m3 => .done ((metric, r) :: res) m3
      | .raised res m3 => .raised ((metric, r) :: res) m3

/-- Python str.capitalize(): first character upper-cased, the rest
    lower-cased. -/
def pyCapitalize (s : String) : String :=
  match s.data with
  | [] => ""
  | c :: cs => String.mk (c.toUpper :: cs.map Char.toLower)

/-- The decimal digit character for n below ten. -/
def digitChar (n : ℕ) : Char :=
  if n = 0 then '0' else if n = 1 then '1' else if n = 2 then '2'
  else if n = 3 then '3' else if n = 4 then '4' else if n = 5 then '5'
  else if n = 6 then '6' else if n = 7 then '7' else if n = 8 then '8' else '9'

/-- The four zero-padded decimal digits of k below 10000. -/
def pad4 (k : ℕ) : String :=
  String.mk [digitChar (k / 1000 % 10), digitChar (k / 100 % 10),
             digitChar (k / 10 % 10), digitChar (k % 10)]

/-- Round half to even, the rounding Python applies to the scaled value when
    formatting a float with a fixed number of decimals. -/
def roundHalfEven (q : ℚ) : ℤ :=
  let f := ⌊q⌋
  if q - f < 1/2 then f
  else if 1/2 < q - f then f + 1
  else if f % 2 = 0 then f else f + 1

/-- Python format specifier .4f on the (rational-modelled) float: the sign,
    the integer part, a decimal point, and exactly four fractional digits. -/
def formatFixed4 (q : ℚ) : String :=
  let n := (roundHalfEven (|q| * 10000)).toNat
  (if q < 0 then "-" else "") ++ toString (n / 10000) ++ "." ++ pad4 (n % 10000)

/-- One summary entry (source lines 114-116): the capitalized metric name,
    the forecast formatted with .4f and the anomaly count as an integer. -/
def renderEntry (metric : String) (r : AnalysisResult) : String :=
  "- " ++ pyCapitalize metric ++ ":\n" ++
  "  Forecasted Value: " ++ formatFixed4 r.forecast ++ "\n" ++
  "  Anomalies Detected: " ++ toString r.anomalies ++ "\n"

/-- The summary text (source lines 112-116): header plus one entry per
    analysis_results item, in insertion order. -/
def renderSummary (results : List (String × AnalysisResult)) : String :=
  "TimeGPT Analysis of Spring Boot Metrics:\n" ++
  String.join (results.map (fun p => renderEntry p.1 p.2))

/-- Outcome of the report-write block (source lines 118-123): the file was
    written, or the exception was caught and logged — never re-raised. -/
inductive WriteOutcome
  | wrote
  | failedLogged
deriving DecidableEq

/-- The try/except around writing /app/analysis.txt. -/
def writeReport (writeOk : Bool) : WriteOutcome :=
  if writeOk then .wrote else .failedLogged

/-- Everything outside the process that one analyze_metrics call observes:
    the per-metric external services, the current time (epoch seconds, for
    datetime.datetime.now) and whether the report write succeeds. -/
structure CycleEnv where
  metricEnv : String → MetricEnv
  now : ℚ
  writeOk : Bool

/-- end_time of the cycle: now. -/
def endOf (env : CycleEnv) : UTCTime := fromtimestamp env.now

/-- start_time of the cycle: now minus timedelta(hours=1). -/
def startOf (env : CycleEnv) : UTCTime := fromtimestamp (env.now - 3600)

/-- What a completed analyze_metrics call produced: the published metrics
    on return, the returned summary, and how the report write ended. -/
structure CycleOutput where
  metrics : Metrics
  summary : String
  writeOutcome : WriteOutcome
deriving DecidableEq

/-- Result of one analyze_metrics call: a normal return, or an uncaught
    exception escaping the function — carrying the analysis_results entries
    made and the published metrics as already updated when it was raised. -/
inductive CycleRes
  | ok (out : CycleOutput)
  | raised (results : List (String × AnalysisResult)) (m : Metrics)
deriving DecidableEq

/-- The published metrics after the call, whether it returned or raised
    (the counters and gauge are process-wide and keep any update already
    applied when an exception fires). -/
def CycleRes.metricsAfter : CycleRes → Metrics
  | .ok out => out.metrics
  | .raised _ m => m

/-- analyze_metrics (source lines 76-125) with the query table abstracted:
    bump the request counter, fix the one-hour window ending now, run the
    per-metric loop, render the summary, attempt the report write, return
    the summary. -/
def analyzeMetricsOver (l : List (String × String)) (env : CycleEnv) (m : Metrics) : CycleRes :=
  let m0 := { m with analysis_requests := m.analysis_requests + 1 }
  match runMetrics env.metricEnv (startOf env) (endOf env) l m0 with
  | .raised res m1 => .raised res m1
  | .done results m1 =>
    .ok { metrics := m1, summary := renderSummary results, writeOutcome := writeReport env.writeOk }

/-- analyze_metrics of the source, over its fixed queries dict. -/
def analyze_metrics (env : CycleEnv) (m : Metrics) : CycleRes :=
  analyzeMetricsOver queries env m

/-- The analysis_results entries of a cycle (independent of the incoming
    published metrics; established below). -/
def cycleResults (env : CycleEnv) : List (String × AnalysisResult) :=
  (runMetrics env.metricEnv (startOf env) (endOf env) queries ⟨0, 0, 0⟩).results

/-- The total number of anomalies detected across the metrics whose
    analysis succeeded in the cycle. -/
def cycleAnomalySum (env : CycleEnv) : ℕ :=
  ((cycleResults env).map (fun p => p.2.anomalies)).sum

/-- The published metrics after n cycles of the main loop starting from m,
    cycle k seeing environment envs k. -/
def runCycles (envs : ℕ → CycleEnv) (m : Metrics) : ℕ → Metrics
  | 0 => m
  | n + 1 => (analyze_metrics (envs n) (runCycles envs m n)).metricsAfter

/-- What one body of the main while-loop did (source lines 139-142): the
    print of a returned summary, or the caught exception logged by the
    except branch. -/
inductive BodyOutcome
  | returned (summary : String)
  | raised (e : String)
deriving DecidableEq

/-- The observable record of one loop iteration: what the body did, and the
    seconds slept afterwards. -/
structure IterRecord where
  outcome : BodyOutcome
  sleptSeconds : ℕ
deriving DecidableEq

/-- The main loop (source lines 138-143): every iteration runs the body,
    catches anything it raised, and sleeps 30; runLoop body n is the trace
    of the first n iterations. -/
def runLoop (body : ℕ → BodyOutcome) : ℕ → List IterRecord
  | 0 => []
  | n + 1 => runLoop body n ++ [⟨body n, 30⟩]

/-- What iteration n of the main loop observes from its analyze_metrics
    call, given per-cycle environments: the returned summary, or the raised
    exception caught and logged as an analysis error. -/
def loopBody (envs : ℕ → CycleEnv) (m : Metrics) (n : ℕ) : BodyOutcome :=
  match analyze_metrics (envs n) (runCycles envs m n) with
  | .ok out => .returned out.summary
  | .raised _ _ => .raised "Error during analysis"

/-- One loop step for a skipped metric. -/
theorem runMetrics_cons_skip {env : String → MetricEnv} {s e : UTCTime}
    {metric q : String} {rest : List (String × String)} {m : Metrics}
    (hp : processMetric (env metric) metric q s e = .skip) :
    runMetrics env s e ((metric, q) :: rest) m = runMetrics env s e rest m := by
  rw [runMetrics, hp]

/-- One loop step for a metric whose prepare_timeseries raised. -/
theorem runMetrics_cons_raised {env : String → MetricEnv} {s e : UTCTime}
    {metric q : String} {rest : List (String × String)} {m : Metrics}
    (hp : processMetric (env metric) metric q s e = .raised) :
    runMetrics env s e ((metric, q) :: rest) m = .raised [] m := by
  rw [runMetrics, hp]

/-- One loop step for a successfully analyzed metric. -/
theorem runMetrics_cons_success {env : String → MetricEnv} {s e : UTCTime}
    {metric q : String} {rest : List (String × String)} {m : Metrics}
    {r : AnalysisResult}
    (hp : processMetric (env metric) metric q s e = .success r) :
    runMetrics env s e ((metric, q) :: rest) m =
      match runMetrics env s e rest (applyUpdates metric r m) with
      | .done res m3 => .done ((metric, r) :: res) m3
      | .raised res m3 => .raised ((metric, r) :: res) m3 := by
  rw [runMetrics, hp]

/-- The answer of query_prometheus is determined by the HTTP outcome alone:
    the query text, the window and the step only shape the outgoing request
    parameters. -/
theorem query_prometheus_args_irrel (q1 q2 : String) (s1 s2 e1 e2 : UTCTime)
    (st1 st2 : String) (h : HttpOutcome) :
    query_prometheus q1 s1 e1 h st1 = query_prometheus q2 s2 e2 h st2 := by
  cases h <;> rfl

theorem applyUpdates_requests (metric : String) (r : AnalysisResult) (m : Metrics) :
    (applyUpdates metric r m).analysis_requests = m.analysis_requests := by
  unfold applyUpdates; split <;> rfl

theorem applyUpdates_anomaly (metric : String) (r : AnalysisResult) (m : Metrics) :
    (applyUpdates metric r m).anomaly_count = m.anomaly_count + r.anomalies := by
  unfold applyUpdates; split <;> rfl

theorem applyUpdates_gauge (metric : String) (r : AnalysisResult) (m : Metrics) :
    (applyUpdates metric r m).latency_forecast =
      if metric = "latency" then r.forecast else m.latency_forecast := by
  unfold applyUpdates; split <;> simp_all

/-- The entries recorded by the per-metric loop do not depend on the
    incoming published metrics. -/
theorem runMetrics_results_indep (env : String → MetricEnv) (s e : UTCTime) :
    ∀ (l : List (String × String)) (m m' : Metrics),
      (runMetrics env s e l m).results = (runMetrics env s e l m').results := by
  intro l
  induction l with
  | nil => intro m m'; rfl
  | cons hd rest ih =>
    intro m m'
    obtain ⟨metric, q⟩ := hd
    cases hp : processMetric (env metric) metric q s e with
    | skip => simpa [runMetrics, hp] using ih m m'
    | raised => simp [runMetrics, hp, RunRes.results]
    | success r =>
      have h2 := ih (applyUpdates metric r m) (applyUpdates metric r m')
      simp only [runMetrics, hp]
      cases h3 : runMetrics env s e rest (applyUpdates metric r m) with
      | done res m3 =>
        cases h4 : runMetrics env s e rest (applyUpdates metric r m') with
        | done res2 m4 => simp_all [RunRes.results]
        | raised res2 m4 => simp_all [RunRes.results]
      | raised res m3 =>
        cases h4 : runMetrics env s e rest (applyUpdates metric r m') with
        | done res2 m4 => simp_all [RunRes.results]
        | raised res2 m4 => simp_all [RunRes.results]

/-- Whether the per-metric loop aborts does not depend on the incoming
    published metrics. -/
theorem runMetrics_isRaised_indep (env : String → MetricEnv) (s e : UTCTime) :
    ∀ (l : List (String × String)) (m m' : Metrics),
      (runMetrics env s e l m).isRaised = (runMetrics env s e l m').isRaised := by
  intro l
  induction l with
  | nil => intro m m'; rfl
  | cons hd rest ih =>
    intro m m'
    obtain ⟨metric, q⟩ := hd
    cases hp : processMetric (env metric) metric q s e with
    | skip => simpa [runMetrics, hp] using ih m m'
    | raised => simp [runMetrics, hp, RunRes.isRaised]
    | success r =>
      have h2 := ih (applyUpdates metric r m) (applyUpdates metric r m')
      simp only [runMetrics, hp]
      cases h3 : runMetrics env s e rest (applyUpdates metric r m) with
      | done res m3 =>
        cases h4 : runMetrics env s e rest (applyUpdates metric r m') with
        | done res2 m4 => simp_all [RunRes.isRaised]
        | raised res2 m4 => simp_all [RunRes.isRaised]
      | raised res m3 =>
        cases h4 : runMetrics env s e rest (applyUpdates metric r m') with
        | done res2 m4 => simp_all [RunRes.isRaised]
        | raised res2 m4 => simp_all [RunRes.isRaised]

/-- The request counter is never touched by the per-metric loop. -/
theorem runMetrics_requests (env : String → MetricEnv) (s e : UTCTime) :
    ∀ (l : List (String × String)) (m : Metrics),
      (runMetrics env s e l m).state.analysis_requests = m.analysis_requests := by
  intro l
  induction l with
  | nil => intro m; rfl
  | cons hd rest ih =>
    intro m
    obtain ⟨metric, q⟩ := hd
    cases hp : processMetric (env metric) metric q s e with
    | skip => simpa [runMetrics, hp] using ih m
    | raised => simp [runMetrics, hp, RunRes.state]
    | success r =>
      have h2 := ih (applyUpdates metric r m)
      simp only [runMetrics, hp]
      cases h3 : runMetrics env s e rest (applyUpdates metric r m) with
      | done res m3 => simp_all [RunRes.state, applyUpdates_requests]
      | raised res m3 => simp_all [RunRes.state, applyUpdates_requests]

/-- The anomaly counter grows by exactly the sum of the anomaly counts of
    the entries the loop recorded. -/
theorem runMetrics_anomaly (env : String → MetricEnv) (s e : UTCTime) :
    ∀ (l : List (String × String)) (m : Metrics),
      (runMetrics env s e l m).state.anomaly_count =
        m.anomaly_count + ((runMetrics env s e l m).results.map (fun p => p.2.anomalies)).sum := by
  intro l
  induction l with
  | nil => intro m; simp [runMetrics, RunRes.state, RunRes.results]
  | cons hd rest ih =>
    intro m
    obtain ⟨metric, q⟩ := hd
    cases hp : processMetric (env metric) metric q s e with
    | skip => simpa [runMetrics, hp] using ih m
    | raised => simp [runMetrics, hp, RunRes.state, RunRes.results]
    | success r =>
      have h2 := ih (applyUpdates metric r m)
      simp only [runMetrics, hp]
      cases h3 : runMetrics env s e rest (applyUpdates metric r m) with
      | done res m3 =>
        simp_all [RunRes.state, RunRes.results, applyUpdates_anomaly]
        omega
      | raised res m3 =>
        simp_all [RunRes.state, RunRes.results, applyUpdates_anomaly]
        omega

/-- If latency is not among the queried names, the loop leaves the latency
    gauge untouched. -/
theorem runMetrics_gauge_notin (env : String → MetricEnv) (s e : UTCTime) :
    ∀ (l : List (String × String)) (m : Metrics), "latency" ∉ l.map Prod.fst →
      (runMetrics env s e l m).state.latency_forecast = m.latency_forecast := by
  intro l
  induction l with
  | nil => intro m _; rfl
  | cons hd rest ih =>
    intro m hnot
    obtain ⟨metric, q⟩ := hd
    have hne : metric ≠ "latency" := by
      intro hc; exact hnot (by simp [hc])
    have hrest : "latency" ∉ rest.map Prod.fst := by
      intro hc; exact hnot (by simp [hc])
    cases hp : processMetric (env metric) metric q s e with
    | skip => simpa [runMetrics, hp] using ih m hrest
    | raised => simp [runMetrics, hp, RunRes.state]
    | success r =>
      have h2 := ih (applyUpdates metric r m) hrest
      have h5 : (applyUpdates metric r m).latency_forecast = m.latency_forecast := by
        rw [applyUpdates_gauge]; simp [hne]
      simp only [runMetrics, hp]
      cases h3 : runMetrics env s e rest (applyUpdates metric r m) with
      | done res m3 => simp_all [RunRes.state]
      | raised res m3 => simp_all [RunRes.state]

/-- Every name recorded by the loop comes from the query table. -/
theorem runMetrics_results_names (env : String → MetricEnv) (s e : UTCTime) :
    ∀ (l : List (String × String)) (m : Metrics) (x : String),
      x ∈ (runMetrics env s e l m).results.map Prod.fst → x ∈ l.map Prod.fst := by
  intro l
  induction l with
  | nil => intro m x hx; simp [runMetrics, RunRes.results] at hx
  | cons hd rest ih =>
    intro m x hx
    obtain ⟨metric, q⟩ := hd
    cases hp : processMetric (env metric) metric q s e with
    | skip =>
      simp only [runMetrics, hp] at hx
      exact List.mem_cons_of_mem _ (ih m x hx)
    | raised => simp [runMetrics, hp, RunRes.results] at hx
    | success r =>
      simp only [runMetrics, hp] at hx
      cases h3 : runMetrics env s e rest (applyUpdates metric r m) with
      | done res m3 =>
        rw [h3] at hx
        simp only [RunRes.results, List.map_cons, List.mem_cons] at hx
        rcases hx with hx | hx
        · simp [hx]
        · refine List.mem_cons_of_mem _ (ih (applyUpdates metric r m) x ?_)
          rw [h3]; simpa [RunRes.results] using hx
      | raised res m3 =>
        rw [h3] at hx
        simp only [RunRes.results, List.map_cons, List.mem_cons] at hx
        rcases hx with hx | hx
        · simp [hx]
        · refine List.mem_cons_of_mem _ (ih (applyUpdates metric r m) x ?_)
          rw [h3]; simpa [RunRes.results] using hx

/-- On a completed (non-aborted) loop, the entries are exactly the
    successful metrics, each paired with its analysis result, in table
    order. -/
theorem runMetrics_done_filterMap (env : String → MetricEnv) (s e : UTCTime) :
    ∀ (l : List (String × String)) (m : Metrics) (res : List (String × AnalysisResult)) (m1 : Metrics),
      runMetrics env s e l m = .done res m1 →
      res = l.filterMap (fun p =>
        match processMetric (env p.1) p.1 p.2 s e with
        | .success r => some (p.1, r)
        | _ => none) := by
  intro l
  induction l with
  | nil =>
    intro m res m1 h
    rw [runMetrics] at h
    cases h
    rfl
  | cons hd rest ih =>
    intro m res m1 h
    obtain ⟨metric, q⟩ := hd
    cases hp : processMetric (env metric) metric q s e with
    | skip =>
      simp only [runMetrics, hp] at h
      simpa [List.filterMap_cons, hp] using ih m res m1 h
    | raised => simp [runMetrics, hp] at h
    | success r =>
      simp only [runMetrics, hp] at h
      cases h3 : runMetrics env s e rest (applyUpdates metric r m) with
      | done res2 m3 =>
        rw [h3] at h
        cases h
        have h5 := ih _ res2 _ h3
        simp [List.filterMap_cons, hp, h5]
      | raised res2 m3 => rw [h3] at h; cases h
/-- If every occurrence of a metric name in the table is skipped this cycle
    (whatever its query text), the loop behaves exactly as if the name were
    absent from the table. -/
theorem runMetrics_skip_filter (env : String → MetricEnv) (s e : UTCTime) (mu : String)
    (hskip : ∀ q', processMetric (env mu) mu q' s e = .skip) :
    ∀ (l : List (String × String)) (m : Metrics),
      runMetrics env s e l m = runMetrics env s e (l.filter (fun p => p.1 != mu)) m := by
  intro l
  induction l with
  | nil => intro m; rfl
  | cons hd rest ih =>
    intro m
    obtain ⟨metric, q⟩ := hd
    by_cases hmu : metric = mu
    · subst hmu
      have hp := hskip q
      simp only [runMetrics, hp, List.filter_cons, bne_self_eq_false]
      simpa using ih m
    · have hfil : ((metric, q) :: rest).filter (fun p => p.1 != mu)
          = (metric, q) :: rest.filter (fun p => p.1 != mu) := by
        simp [List.filter_cons, bne_iff_ne, hmu]
      rw [hfil]
      cases hp : processMetric (env metric) metric q s e with
      | skip => simp only [runMetrics, hp]; exact ih m
      | raised => simp [runMetrics, hp]
      | success r =>
        simp only [runMetrics, hp]
        rw [ih (applyUpdates metric r m)]

/-- A name removed by the filter is absent from the filtered table. -/
theorem filter_names_not_mem (mu : String) (l : List (String × String)) :
    mu ∉ (l.filter (fun p => p.1 != mu)).map Prod.fst := by
  intro hmem
  simp only [List.mem_map] at hmem
  obtain ⟨p, hp, hfst⟩ := hmem
  rw [List.mem_filter] at hp
  exact absurd hfst (by simpa [bne_iff_ne] using hp.2)

/-- If prepare_timeseries yields None for the HTTP outcome a metric gets
    this cycle, the metric is skipped regardless of the query text used. -/
theorem processMetric_skip_of_noSeries (menv : MetricEnv) (metric : String)
    (s e : UTCTime) (q0 : String)
    (h : prepare_timeseries (query_prometheus q0 s e menv.http "15s") metric = .noSeries) :
    ∀ q', processMetric menv metric q' s e = .skip := by
  intro q'
  unfold processMetric
  rw [query_prometheus_args_irrel q' q0 s s e e "15s" "15s" menv.http, h]

/-- If the series is built but one of the two service calls raises, the
    metric is skipped, regardless of the query text used. -/
theorem processMetric_skip_of_serviceRaised (menv : MetricEnv) (metric : String)
    (s e : UTCTime) (q0 : String) (df : TimeSeries)
    (hprep : prepare_timeseries (query_prometheus q0 s e menv.http "15s") metric = .series df)
    (hsvc : serviceRaised menv = true) :
    ∀ q', processMetric menv metric q' s e = .skip := by
  intro q'
  unfold processMetric
  rw [query_prometheus_args_irrel q' q0 s s e e "15s" "15s" menv.http, hprep]
  unfold serviceRaised at hsvc
  cases hf : menv.forecast with
  | raised => rfl
  | ok fc =>
    cases ha : menv.anomalies with
    | raised => rfl
    | ok flags =>
      rw [hf, ha] at hsvc
      simp [SvcRes.isRaised] at hsvc

/-- The published metrics after a cycle are the state the per-metric loop
    left, starting from the bumped request counter — whether or not the
    cycle aborted. -/
theorem analyzeOver_metricsAfter (l : List (String × String)) (env : CycleEnv) (m : Metrics) :
    (analyzeMetricsOver l env m).metricsAfter =
      (runMetrics env.metricEnv (startOf env) (endOf env) l
        { m with analysis_requests := m.analysis_requests + 1 }).state := by
  unfold analyzeMetricsOver
  cases h : runMetrics env.metricEnv (startOf env) (endOf env) l
      { m with analysis_requests := m.analysis_requests + 1 } with
  | done res m1 => simp [h, CycleRes.metricsAfter, RunRes.state]
  | raised res m1 => simp [h, CycleRes.metricsAfter, RunRes.state]

/-- The cycle entries equal the loop entries from any starting metrics. -/
theorem cycleResults_eq (env : CycleEnv) (m : Metrics) :
    cycleResults env = (runMetrics env.metricEnv (startOf env) (endOf env) queries m).results := by
  unfold cycleResults
  exact runMetrics_results_indep env.metricEnv (startOf env) (endOf env) queries ⟨0, 0, 0⟩ m

/-- Whether float(item[k]) produced a value. -/
def FieldRes.isOk : FieldRes → Bool
  | .ok _ => true
  | _ => false

/-- The value float(item[k]) produced (zero as a don't-care fallback). -/
def fieldValD (item : List JScalar) (k : ℕ) : ℚ :=
  match parseField item k with
  | .ok q => q
  | _ => 0

/-- When float succeeds on field k of every sample, the comprehension
    yields the column of all those values, in sample order. -/
theorem parseColumn_all_ok (k : ℕ) :
    ∀ vals : List (List JScalar), (∀ item ∈ vals, (parseField item k).isOk = true) →
      parseColumn vals k = .ok (vals.map (fun item => fieldValD item k)) := by
  intro vals
  induction vals with
  | nil => intro _; rfl
  | cons item rest ih =>
    intro hall
    have hitem := hall item (List.mem_cons_self item rest)
    have hrest := ih (fun i hi => hall i (List.mem_cons_of_mem _ hi))
    cases hf : parseField item k with
    | ok q => simp [parseColumn, hf, hrest, fieldValD]
    | caught => rw [hf] at hitem; simp [FieldRes.isOk] at hitem
    | uncaught => rw [hf] at hitem; simp [FieldRes.isOk] at hitem

/-- If no sample's field k makes float raise TypeError, the comprehension
    cannot end in an uncaught exception. -/
theorem parseColumn_no_uncaught (k : ℕ) :
    ∀ vals : List (List JScalar), (∀ item ∈ vals, parseField item k ≠ .uncaught) →
      parseColumn vals k ≠ .uncaught := by
  intro vals
  induction vals with
  | nil => intro _ h; simp [parseColumn] at h
  | cons item rest ih =>
    intro hall h
    have hitem := hall item (List.mem_cons_self item rest)
    have hrest := ih (fun i hi => hall i (List.mem_cons_of_mem _ hi))
    cases hf : parseField item k with
    | ok q =>
      rw [parseColumn, hf] at h
      cases h3 : parseColumn rest k with
      | ok qs => rw [h3] at h; cases h
      | caught => rw [h3] at h; cases h
      | uncaught => exact hrest h3
    | caught => rw [parseColumn, hf] at h; cases h
    | uncaught => exact hitem hf

/-- If the comprehension completed, float succeeded on field k of every
    sample. -/
theorem parseColumn_ok_forall (k : ℕ) :
    ∀ (vals : List (List JScalar)) (qs : List ℚ), parseColumn vals k = .ok qs →
      ∀ item ∈ vals, (parseField item k).isOk = true := by
  intro vals
  induction vals with
  | nil => intro qs _ item hi; simp at hi
  | cons item0 rest ih =>
    intro qs h item hi
    cases hf : parseField item0 k with
    | ok q =>
      rw [parseColumn, hf] at h
      cases h3 : parseColumn rest k with
      | ok qs2 =>
        rcases List.mem_cons.mp hi with hi | hi
        · subst hi; simp [hf, FieldRes.isOk]
        · exact ih qs2 h3 item hi
      | caught => rw [h3] at h; cases h
      | uncaught => rw [h3] at h; cases h
    | caught => rw [parseColumn, hf] at h; cases h
    | uncaught => rw [parseColumn, hf] at h; cases h

theorem digitChar_isDigit (n : ℕ) : (digitChar n).isDigit = true := by
  unfold digitChar
  split_ifs <;> decide

theorem pad4_length (k : ℕ) : (pad4 k).length = 4 := rfl

theorem pad4_digits (k : ℕ) : ∀ c ∈ (pad4 k).data, c.isDigit = true := by
  intro c hc
  have hdata : (pad4 k).data
      = [digitChar (k / 1000 % 10), digitChar (k / 100 % 10),
         digitChar (k / 10 % 10), digitChar (k % 10)] := rfl
  rw [hdata] at hc
  simp only [List.mem_cons, List.not_mem_nil, or_false] at hc
  rcases hc with hc | hc | hc | hc <;> (rw [hc]; exact digitChar_isDigit _)

/-- The .4f format always renders as an integer part, a decimal point, and
    exactly four decimal digits. -/
theorem formatFixed4_shape (q : ℚ) :
    ∃ ip frac, formatFixed4 q = ip ++ "." ++ frac ∧ frac.length = 4
      ∧ ∀ c ∈ frac.data, c.isDigit = true := by
  refine ⟨(if q < 0 then "-" else "")
      ++ toString ((roundHalfEven (|q| * 10000)).toNat / 10000),
    pad4 ((roundHalfEven (|q| * 10000)).toNat % 10000),
    ?_, pad4_length _, pad4_digits _⟩
  unfold formatFixed4
  rw [String.append_assoc]

/-- Per-cycle effect of analyze_metrics on the request counter. -/
theorem analyze_requests_step (env : CycleEnv) (m : Metrics) :
    (analyze_metrics env m).metricsAfter.analysis_requests = m.analysis_requests + 1 := by
  unfold analyze_metrics
  rw [analyzeOver_metricsAfter, runMetrics_requests]

/-- Per-cycle effect of analyze_metrics on the anomaly counter. -/
theorem analyze_anomaly_step (env : CycleEnv) (m : Metrics) :
    (analyze_metrics env m).metricsAfter.anomaly_count = m.anomaly_count + cycleAnomalySum env := by
  unfold analyze_metrics
  rw [analyzeOver_metricsAfter, runMetrics_anomaly]
  unfold cycleAnomalySum
  rw [cycleResults_eq env { m with analysis_requests := m.analysis_requests + 1 }]

/-- The query table in head-tail form. -/
theorem queries_expand :
    queries = ("latency", latencyQuery)
      :: [("error_rate", errorRateQuery), ("heap_usage", heapUsageQuery),
          ("gc_pauses", gcPausesQuery)] := rfl

/-- latency is not a name of the last three queries. -/
theorem latency_notin_tail :
    "latency" ∉ ([("error_rate", errorRateQuery), ("heap_usage", heapUsageQuery),
          ("gc_pauses", gcPausesQuery)] : List (String × String)).map Prod.fst := by
  decide

/-- Per-cycle effect of analyze_metrics on the latency gauge: it is exactly
    the latency forecast mean when the latency analysis succeeded, and the
    incoming value otherwise. -/
theorem analyze_gauge_step (env : CycleEnv) (m : Metrics) :
    (analyze_metrics env m).metricsAfter.latency_forecast =
      (processMetric (env.metricEnv "latency") "latency" latencyQuery
        (startOf env) (endOf env)).forecastOr m.latency_forecast := by
  unfold analyze_metrics
  rw [analyzeOver_metricsAfter, queries_expand]
  cases hp : processMetric (env.metricEnv "latency") "latency" latencyQuery
      (startOf env) (endOf env) with
  | skip =>
    rw [runMetrics_cons_skip hp]
    simp only [PMRes.forecastOr]
    exact runMetrics_gauge_notin env.metricEnv (startOf env) (endOf env) _ _ latency_notin_tail
  | raised =>
    rw [runMetrics_cons_raised hp]
    simp [RunRes.state, PMRes.forecastOr]
  | success r =>
    rw [runMetrics_cons_success hp]
    simp only [PMRes.forecastOr]
    have hgap : (applyUpdates "latency" r
        { m with analysis_requests := m.analysis_requests + 1 }).latency_forecast = r.forecast := by
      rw [applyUpdates_gauge]; simp
    have hg := runMetrics_gauge_notin env.metricEnv (startOf env) (endOf env) _
      (applyUpdates "latency" r { m with analysis_requests := m.analysis_requests + 1 })
      latency_notin_tail
    cases h3 : runMetrics env.metricEnv (startOf env) (endOf env)
        [("error_rate", errorRateQuery), ("heap_usage", heapUsageQuery),
         ("gc_pauses", gcPausesQuery)]
        (applyUpdates "latency" r { m with analysis_requests := m.analysis_requests + 1 }) with
    | done res m3 =>
      rw [h3] at hg
      simp only [RunRes.state] at hg
      simp [RunRes.state, hg, hgap]
    | raised res m3 =>
      rw [h3] at hg
      simp only [RunRes.state] at hg
      simp [RunRes.state, hg, hgap]

/-- C10: the analysis-requests counter is incremented exactly once per
    cycle, unconditionally at the start of the cycle — whatever happens to
    the four metric analyses afterwards — so after n cycles it has grown by
    exactly n: it counts cycles started, not metrics analyzed. -/
theorem c10_requests_counter_counts_cycles :
    (∀ (env : CycleEnv) (m : Metrics),
      (analyze_metrics env m).metricsAfter.analysis_requests = m.analysis_requests + 1)
    ∧ ∀ (envs : ℕ → CycleEnv) (m : Metrics) (n : ℕ),
        (runCycles envs m n).analysis_requests = m.analysis_requests + n := by
  constructor
  · exact analyze_requests_step
  · intro envs m n
    induction n with
    | zero => rfl
    | succ k ih =>
      show (analyze_metrics (envs k) (runCycles envs m k)).metricsAfter.analysis_requests = _
      rw [analyze_requests_step, ih]
      omega

/-- C5: across cycles the anomaly counter never decreases, and each cycle
    adds to it exactly the sum of the anomaly counts of the metrics whose
    analysis succeeded in that cycle (skipped metrics contribute nothing,
    since only successful analyses produce entries). -/
theorem c5_anomaly_counter_monotone_sum :
    ∀ (envs : ℕ → CycleEnv) (m : Metrics) (n : ℕ),
      (runCycles envs m n).anomaly_count ≤ (runCycles envs m (n + 1)).anomaly_count
      ∧ (runCycles envs m (n + 1)).anomaly_count
          = (runCycles envs m n).anomaly_count + cycleAnomalySum (envs n) := by
  intro envs m n
  have hstep : (runCycles envs m (n + 1)).anomaly_count
      = (runCycles envs m n).anomaly_count + cycleAnomalySum (envs n) := by
    show (analyze_metrics (envs n) (runCycles envs m n)).metricsAfter.anomaly_count = _
    rw [analyze_anomaly_step]
  exact ⟨by rw [hstep]; exact Nat.le_add_right _ _, hstep⟩

/-- C4: after any cycle, the latency gauge holds the forecast mean of the
    latency analysis if that analysis succeeded this cycle (overwritten,
    independent of the previous value), and the previous value otherwise
    (query, parse or analysis-service failure for latency); the success of
    the other three metrics never appears in this equation. -/
theorem c4_latency_gauge_latest_only :
    ∀ (env : CycleEnv) (m : Metrics),
      (analyze_metrics env m).metricsAfter.latency_forecast =
        (processMetric (env.metricEnv "latency") "latency" latencyQuery
          (startOf env) (endOf env)).forecastOr m.latency_forecast :=
  analyze_gauge_step

/-- C8: whatever each cycle's body does — return a summary or raise — the
    loop records the outcome (catching and logging any exception), sleeps
    the normal 30-second interval, and iterates again: the trace of n
    iterations always has exactly n records, every record slept 30, and the
    trace of n+1 iterations extends the trace of n by the caught outcome of
    body n. No exception outcome truncates the trace. -/
theorem c8_loop_never_dies :
    ∀ (envs : ℕ → CycleEnv) (m : Metrics) (n : ℕ),
      (runLoop (loopBody envs m) n).length = n
      ∧ (∀ itRec ∈ runLoop (loopBody envs m) n, itRec.sleptSeconds = 30)
      ∧ runLoop (loopBody envs m) (n + 1)
          = runLoop (loopBody envs m) n ++ [⟨loopBody envs m n, 30⟩] := by
  intro envs m n
  refine ⟨?_, ?_, rfl⟩
  · induction n with
    | zero => rfl
    | succ k ih => simp [runLoop, ih]
  · induction n with
    | zero => intro itRec h; simp [runLoop] at h
    | succ k ih =>
      intro itRec h
      rw [runLoop] at h
      rcases List.mem_append.mp h with h | h
      · exact ih itRec h
      · simp only [List.mem_singleton] at h
        rw [h]

/-- C9: a report-write failure is absorbed: the cycle returns the same
    summary and the same published metrics as with a successful write, the
    only difference being that the write outcome is the caught-and-logged
    failure. The function still returns normally, so the loop goes on. -/
theorem c9_write_failure_never_fatal :
    ∀ (menv : String → MetricEnv) (now : ℚ) (m : Metrics) (out : CycleOutput),
      analyze_metrics ⟨menv, now, true⟩ m = .ok out →
      analyze_metrics ⟨menv, now, false⟩ m
        = .ok ⟨out.metrics, out.summary, .failedLogged⟩ := by
  intro menv now m out h
  have hrw : ∀ w : Bool, analyze_metrics ⟨menv, now, w⟩ m =
      match runMetrics menv (fromtimestamp (now - 3600)) (fromtimestamp now) queries
          { m with analysis_requests := m.analysis_requests + 1 } with
      | .raised res m1 => .raised res m1
      | .done results m1 =>
        .ok { metrics := m1, summary := renderSummary results, writeOutcome := writeReport w } := by
    intro w; rfl
  rw [hrw] at h
  rw [hrw]
  cases h3 : runMetrics menv (fromtimestamp (now - 3600)) (fromtimestamp now) queries
      { m with analysis_requests := m.analysis_requests + 1 } with
  | done res m1 =>
    rw [h3] at h
    injection h with h5
    subst h5
    rfl
  | raised res m1 =>
    rw [h3] at h
    cases h

/-- raise_for_status raises exactly on the 4xx/5xx statuses. -/
theorem raisesForStatus_iff (code : ℕ) :
    raisesForStatus code = true ↔ (400 ≤ code ∧ code < 600) := by
  simp [raisesForStatus]

/-- C3 counterexample: a 304 response — not a 2xx status — carrying a
    parseable JSON body with a top-level data field is returned as-is by
    query_prometheus, not turned into the empty result, because
    raise_for_status only raises for statuses in 400..599. -/
theorem c3_counterexample_non2xx_not_empty :
    ¬ (200 ≤ 304 ∧ 304 < 300)
    ∧ query_prometheus "up" (fromtimestamp 0) (fromtimestamp 300)
        (.status 304 (some ⟨some ⟨some []⟩⟩)) "15s" = .ok ⟨some ⟨some []⟩⟩ :=
  ⟨by decide, by decide⟩

/-- C3 (amended): the backend query client never raises to its caller; on a
    raised RequestException (network error, timeout, unparseable JSON body)
    or an HTTP 4xx/5xx response it returns the empty result; on any other
    response it returns the parsed body, except that a missing top-level
    data field also yields the empty result. -/
theorem c3_amended_query_client_contract :
    ∀ (q st : String) (s e : UTCTime),
      query_prometheus q s e .exn st = .empty
      ∧ (∀ (code : ℕ) (body : Option Body), 400 ≤ code → code < 600 →
          query_prometheus q s e (.status code body) st = .empty)
      ∧ (∀ code : ℕ, ¬ (400 ≤ code ∧ code < 600) →
          query_prometheus q s e (.status code none) st = .empty)
      ∧ (∀ (code : ℕ) (b : Body), ¬ (400 ≤ code ∧ code < 600) → b.data = none →
          query_prometheus q s e (.status code (some b)) st = .empty)
      ∧ (∀ (code : ℕ) (b : Body) (d : DataField), ¬ (400 ≤ code ∧ code < 600) → b.data = some d →
          query_prometheus q s e (.status code (some b)) st = .ok b) := by
  intro q st s e
  have hfalse : ∀ code : ℕ, ¬ (400 ≤ code ∧ code < 600) → raisesForStatus code = false := by
    intro code h
    cases hb : raisesForStatus code with
    | false => rfl
    | true => exact absurd ((raisesForStatus_iff code).mp hb) h
  refine ⟨rfl, ?_, ?_, ?_, ?_⟩
  · intro code body h1 h2
    have hb : raisesForStatus code = true := (raisesForStatus_iff code).mpr ⟨h1, h2⟩
    simp [query_prometheus, hb]
  · intro code h
    simp [query_prometheus, hfalse code h]
  · intro code b h hdata
    simp [query_prometheus, hfalse code h, hdata]
  · intro code b d h hdata
    simp [query_prometheus, hfalse code h, hdata]

/-- Witness for the amended C3 at concrete inputs: a 500 response yields
    the empty result. -/
theorem c3_amended_witness :
    (400 ≤ 500 ∧ 500 < 600)
    ∧ query_prometheus "up" (fromtimestamp 0) (fromtimestamp 300) (.status 500 none) "15s"
        = .empty :=
  ⟨by decide,
    (c3_amended_query_client_contract "up" "15s" (fromtimestamp 0) (fromtimestamp 300)).2.1
      500 none (by decide) (by decide)⟩

/-- prepare_timeseries on a body whose first series is r0 reduces to the
    two column comprehensions over the values of r0. -/
theorem prepare_cons_eq (metric : String) (r0 : RawSeries) (rest : List RawSeries)
    (vals : List (List JScalar)) (hval : r0.values = some vals) :
    prepare_timeseries (.ok ⟨some ⟨some (r0 :: rest)⟩⟩) metric =
      match parseColumn vals 0 with
      | .caught => .noSeries
      | .uncaught => .raised
      | .ok ts =>
        match parseColumn vals 1 with
        | .caught => .noSeries
        | .uncaught => .raised
        | .ok ys => .series ⟨ts.map fromtimestamp, ys⟩ := by
  have base : prepare_timeseries (.ok ⟨some ⟨some (r0 :: rest)⟩⟩) metric =
      match r0.values with
      | none => .noSeries
      | some vals =>
        match parseColumn vals 0 with
        | .caught => .noSeries
        | .uncaught => .raised
        | .ok ts =>
          match parseColumn vals 1 with
          | .caught => .noSeries
          | .uncaught => .raised
          | .ok ys => .series ⟨ts.map fromtimestamp, ys⟩ := rfl
  rw [base, hval]

/-- C2: the series builder uses only the first result series even when more
    are returned; on success it converts every sample of that first series
    in order — timestamps to UTC instants, values to floats; and whenever
    any sample has a missing field or a non-numeric string value (and no
    sample triggers the uncaught TypeError path), the entire metric comes
    back absent — never a partial series. -/
theorem c2_series_builder_first_series_all_or_nothing :
    ∀ (metric : String) (r0 : RawSeries) (rest : List RawSeries)
      (vals : List (List JScalar)), r0.values = some vals →
      ( prepare_timeseries (.ok ⟨some ⟨some (r0 :: rest)⟩⟩) metric
          = prepare_timeseries (.ok ⟨some ⟨some [r0]⟩⟩) metric )
      ∧ ( (∀ item ∈ vals, (parseField item 0).isOk = true ∧ (parseField item 1).isOk = true) →
          prepare_timeseries (.ok ⟨some ⟨some (r0 :: rest)⟩⟩) metric
            = .series ⟨vals.map (fun item => fromtimestamp (fieldValD item 0)),
                       vals.map (fun item => fieldValD item 1)⟩ )
      ∧ ( ((∃ item ∈ vals, parseField item 0 = .caught ∨ parseField item 1 = .caught)
            ∧ ∀ item ∈ vals, parseField item 0 ≠ .uncaught ∧ parseField item 1 ≠ .uncaught) →
          prepare_timeseries (.ok ⟨some ⟨some (r0 :: rest)⟩⟩) metric = .noSeries ) := by
  intro metric r0 rest vals hval
  refine ⟨rfl, ?_, ?_⟩
  · intro hall
    rw [prepare_cons_eq metric r0 rest vals hval]
    rw [parseColumn_all_ok 0 vals (fun i hi => (hall i hi).1)]
    rw [parseColumn_all_ok 1 vals (fun i hi => (hall i hi).2)]
    simp [List.map_map, Function.comp]
  · rintro ⟨⟨item, hmem, hcaught⟩, hnu⟩
    rw [prepare_cons_eq metric r0 rest vals hval]
    have hnu0 : parseColumn vals 0 ≠ .uncaught :=
      parseColumn_no_uncaught 0 vals (fun i hi => (hnu i hi).1)
    have hnu1 : parseColumn vals 1 ≠ .uncaught :=
      parseColumn_no_uncaught 1 vals (fun i hi => (hnu i hi).2)
    cases h0 : parseColumn vals 0 with
    | caught => rfl
    | uncaught => exact absurd h0 hnu0
    | ok ts =>
      have hall0 := parseColumn_ok_forall 0 vals ts h0
      rcases hcaught with hcaught | hcaught
      · have := hall0 item hmem
        rw [hcaught] at this
        simp [FieldRes.isOk] at this
      · cases h1 : parseColumn vals 1 with
        | caught => rfl
        | uncaught => exact absurd h1 hnu1
        | ok ys =>
          have := parseColumn_ok_forall 1 vals ys h1 item hmem
          rw [hcaught] at this
          simp [FieldRes.isOk] at this

/-- Concrete sample data for the C2 witness: a first series with two
    well-formed samples, followed by a second series that would be
    malformed if it were read (it never is). -/
def witSeries : RawSeries :=
  ⟨some [[JScalar.num 100, JScalar.str (some 2)], [JScalar.num 115, JScalar.num 3]]⟩

/-- Witness for C2 at concrete inputs: both samples of the first series
    parse, so the builder returns exactly their conversions. -/
theorem c2_witness :
    witSeries.values
        = some [[JScalar.num 100, JScalar.str (some 2)], [JScalar.num 115, JScalar.num 3]]
    ∧ prepare_timeseries (.ok ⟨some ⟨some (witSeries :: [⟨none⟩])⟩⟩) "latency"
        = .series
          ⟨[[JScalar.num 100, JScalar.str (some 2)], [JScalar.num 115, JScalar.num 3]].map
              (fun item => fromtimestamp (fieldValD item 0)),
           [[JScalar.num 100, JScalar.str (some 2)], [JScalar.num 115, JScalar.num 3]].map
              (fun item => fieldValD item 1)⟩ :=
  ⟨rfl,
    (c2_series_builder_first_series_all_or_nothing "latency" witSeries [⟨none⟩]
      [[JScalar.num 100, JScalar.str (some 2)], [JScalar.num 115, JScalar.num 3]] rfl).2.1
      (by decide)⟩

/-- Restricting the successful-entry view to names: the names recorded on a
    completed cycle are the names of the successful queries, in order. -/
theorem filterMap_success_names (env : String → MetricEnv) (s e : UTCTime) :
    ∀ l : List (String × String),
      (l.filterMap (fun p =>
        match processMetric (env p.1) p.1 p.2 s e with
        | .success r => some (p.1, r)
        | _ => none)).map Prod.fst
      = (l.filter (fun p => (processMetric (env p.1) p.1 p.2 s e).isSuccess)).map Prod.fst := by
  intro l
  induction l with
  | nil => rfl
  | cons hd rest ih =>
    cases hp : processMetric (env hd.1) hd.1 hd.2 s e with
    | skip => simp [List.filterMap_cons, List.filter_cons, hp, PMRes.isSuccess, ih]
    | raised => simp [List.filterMap_cons, List.filter_cons, hp, PMRes.isSuccess, ih]
    | success r => simp [List.filterMap_cons, List.filter_cons, hp, PMRes.isSuccess, ih]

/-- If no metric's prepare_timeseries raises this cycle, the per-metric
    loop completes. -/
theorem runMetrics_done_of_no_raise (env : String → MetricEnv) (s e : UTCTime) :
    ∀ (l : List (String × String)) (m : Metrics),
      (∀ p ∈ l, processMetric (env p.1) p.1 p.2 s e ≠ .raised) →
      ∃ res m1, runMetrics env s e l m = .done res m1 := by
  intro l
  induction l with
  | nil => intro m _; exact ⟨[], m, rfl⟩
  | cons hd rest ih =>
    intro m hall
    have hhd := hall hd (List.mem_cons_self hd rest)
    have hrest : ∀ p ∈ rest, processMetric (env p.1) p.1 p.2 s e ≠ .raised :=
      fun p hp => hall p (List.mem_cons_of_mem _ hp)
    obtain ⟨metric, q⟩ := hd
    cases hp : processMetric (env metric) metric q s e with
    | raised => exact absurd hp hhd
    | skip =>
      rw [runMetrics_cons_skip hp]
      exact ih m hrest
    | success r =>
      obtain ⟨res, m1, hdone⟩ := ih (applyUpdates metric r m) hrest
      rw [runMetrics_cons_success hp, hdone]
      exact ⟨(metric, r) :: res, m1, rfl⟩

/-- analyzeMetricsOver unfolded against an arbitrary table. -/
theorem analyzeOver_unfold (l : List (String × String)) (env : CycleEnv) (m : Metrics) :
    analyzeMetricsOver l env m =
      match runMetrics env.metricEnv (startOf env) (endOf env) l
          { m with analysis_requests := m.analysis_requests + 1 } with
      | .raised res m1 => .raised res m1
      | .done results m1 =>
        .ok { metrics := m1, summary := renderSummary results,
              writeOutcome := writeReport env.writeOk } := rfl

/-- C1: a metric whose backend response has no parseable series (the builder
    returns None) is absent from the cycle's entries — hence from the
    rendered summary — and the whole cycle, published-metrics updates and
    summary included, is exactly what it would have been had that metric not
    been in the query table at all: its failure is invisible to the other
    metrics and does not abort the cycle. -/
theorem c1_unparseable_metric_is_isolated :
    ∀ (env : CycleEnv) (m : Metrics) (mu q : String),
      (mu, q) ∈ queries →
      prepare_timeseries
          (query_prometheus q (startOf env) (endOf env) (env.metricEnv mu).http "15s") mu
        = .noSeries →
      mu ∉ (cycleResults env).map Prod.fst
      ∧ analyze_metrics env m
          = analyzeMetricsOver (queries.filter (fun p => p.1 != mu)) env m := by
  intro env m mu q hmem hprep
  have hskip := processMetric_skip_of_noSeries (env.metricEnv mu) mu
    (startOf env) (endOf env) q hprep
  have hfil := runMetrics_skip_filter env.metricEnv (startOf env) (endOf env) mu hskip
  constructor
  · intro hmem2
    unfold cycleResults at hmem2
    rw [hfil queries ⟨0, 0, 0⟩] at hmem2
    exact filter_names_not_mem mu queries
      (runMetrics_results_names env.metricEnv (startOf env) (endOf env) _ _ mu hmem2)
  · rw [show analyze_metrics env m = analyzeMetricsOver queries env m from rfl,
      analyzeOver_unfold, analyzeOver_unfold,
      hfil queries { m with analysis_requests := m.analysis_requests + 1 }]

/-- A cycle environment in which every backend query raises a
    RequestException: every metric is skipped. -/
def skipEnv : CycleEnv := ⟨fun _ => ⟨.exn, .raised, .raised⟩, 0, true⟩

/-- Witness for C1 at concrete inputs: with the latency query failing, the
    cycle equals the cycle over the other three queries. -/
theorem c1_witness :
    (("latency", latencyQuery) ∈ queries
      ∧ prepare_timeseries
          (query_prometheus latencyQuery (startOf skipEnv) (endOf skipEnv)
            (skipEnv.metricEnv "latency").http "15s") "latency" = .noSeries)
    ∧ ("latency" ∉ (cycleResults skipEnv).map Prod.fst
        ∧ analyze_metrics skipEnv ⟨0, 0, 0⟩
            = analyzeMetricsOver (queries.filter (fun p => p.1 != "latency")) skipEnv ⟨0, 0, 0⟩) :=
  ⟨⟨by decide, by decide⟩,
    c1_unparseable_metric_is_isolated skipEnv ⟨0, 0, 0⟩ "latency" latencyQuery
      (by decide) (by decide)⟩

/-- C6: on a completed cycle the summary is the fixed header followed by one
    block per successful metric; the entries traverse the fixed query order
    latency, error_rate, heap_usage, gc_pauses restricted to the successful
    metrics; each block shows the capitalized name, the .4f-formatted
    forecast and the integer anomaly count; and the .4f format always
    carries exactly four decimal digits. -/
theorem c6_summary_fixed_order_and_format :
    ∀ (env : CycleEnv) (m : Metrics) (out : CycleOutput),
      analyze_metrics env m = .ok out →
      out.summary = renderSummary (cycleResults env)
      ∧ (cycleResults env).map Prod.fst
          = (queries.filter (fun p =>
              (processMetric (env.metricEnv p.1) p.1 p.2
                (startOf env) (endOf env)).isSuccess)).map Prod.fst
      ∧ queries.map Prod.fst = ["latency", "error_rate", "heap_usage", "gc_pauses"]
      ∧ (∀ (name : String) (r : AnalysisResult),
          renderEntry name r
            = "- " ++ pyCapitalize name ++ ":\n" ++ "  Forecasted Value: "
              ++ formatFixed4 r.forecast ++ "\n" ++ "  Anomalies Detected: "
              ++ toString r.anomalies ++ "\n")
      ∧ ∀ q : ℚ, ∃ ip frac, formatFixed4 q = ip ++ "." ++ frac ∧ frac.length = 4
          ∧ ∀ c ∈ frac.data, c.isDigit = true := by
  intro env m out h
  rw [show analyze_metrics env m = analyzeMetricsOver queries env m from rfl,
    analyzeOver_unfold] at h
  cases h3 : runMetrics env.metricEnv (startOf env) (endOf env) queries
      { m with analysis_requests := m.analysis_requests + 1 } with
  | raised res m1 => rw [h3] at h; cases h
  | done res m1 =>
    rw [h3] at h
    injection h with h5
    subst h5
    have hres : cycleResults env = res := by
      rw [cycleResults_eq env { m with analysis_requests := m.analysis_requests + 1 }, h3]
      rfl
    refine ⟨by rw [hres], ?_, rfl, fun name r => rfl, formatFixed4_shape⟩
    rw [hres,
      runMetrics_done_filterMap env.metricEnv (startOf env) (endOf env) queries _ res m1 h3]
    exact filterMap_success_names env.metricEnv (startOf env) (endOf env) queries

/-- Witness for C6 at concrete inputs: the all-skipped cycle completes and
    its summary is the header-only render of its (empty) entry list. -/
theorem c6_witness :
    analyze_metrics skipEnv ⟨3, 7, 5⟩
        = .ok ⟨⟨4, 7, 5⟩, "TimeGPT Analysis of Spring Boot Metrics:\n", .wrote⟩
    ∧ (⟨⟨4, 7, 5⟩, "TimeGPT Analysis of Spring Boot Metrics:\n",
          WriteOutcome.wrote⟩ : CycleOutput).summary
        = renderSummary (cycleResults skipEnv) :=
  ⟨by decide,
    (c6_summary_fixed_order_and_format skipEnv ⟨3, 7, 5⟩
      ⟨⟨4, 7, 5⟩, "TimeGPT Analysis of Spring Boot Metrics:\n", .wrote⟩ (by decide)).1⟩

/-- C7: when the analysis service raises for one metric whose series was
    built (and no metric hits the uncaught prepare path), that metric is
    absent from the cycle's entries, the entire cycle equals the cycle over
    the query table without it, and every other metric that analyzed
    successfully appears in the entries with its own result: one metric's
    service failure never disturbs the others. -/
theorem c7_service_failure_does_not_couple :
    ∀ (env : CycleEnv) (m : Metrics) (mu q : String) (df : TimeSeries),
      (mu, q) ∈ queries →
      prepare_timeseries
          (query_prometheus q (startOf env) (endOf env) (env.metricEnv mu).http "15s") mu
        = .series df →
      serviceRaised (env.metricEnv mu) = true →
      (∀ p ∈ queries,
        processMetric (env.metricEnv p.1) p.1 p.2 (startOf env) (endOf env) ≠ .raised) →
      mu ∉ (cycleResults env).map Prod.fst
      ∧ analyze_metrics env m
          = analyzeMetricsOver (queries.filter (fun p => p.1 != mu)) env m
      ∧ ∀ (nu q' : String) (r : AnalysisResult), (nu, q') ∈ queries →
          processMetric (env.metricEnv nu) nu q' (startOf env) (endOf env) = .success r →
          (nu, r) ∈ cycleResults env := by
  intro env m mu q df hmem hprep hsvc hnoraise
  have hskip := processMetric_skip_of_serviceRaised (env.metricEnv mu) mu
    (startOf env) (endOf env) q df hprep hsvc
  have hfil := runMetrics_skip_filter env.metricEnv (startOf env) (endOf env) mu hskip
  refine ⟨?_, ?_, ?_⟩
  · intro hmem2
    unfold cycleResults at hmem2
    rw [hfil queries ⟨0, 0, 0⟩] at hmem2
    exact filter_names_not_mem mu queries
      (runMetrics_results_names env.metricEnv (startOf env) (endOf env) _ _ mu hmem2)
  · rw [show analyze_metrics env m = analyzeMetricsOver queries env m from rfl,
      analyzeOver_unfold, analyzeOver_unfold,
      hfil queries { m with analysis_requests := m.analysis_requests + 1 }]
  · intro nu q' r hmemnu hsucc
    obtain ⟨res, m1, hdone⟩ := runMetrics_done_of_no_raise env.metricEnv
      (startOf env) (endOf env) queries ⟨0, 0, 0⟩ hnoraise
    have hres : cycleResults env = res := by
      unfold cycleResults
      rw [hdone]
      rfl
    rw [hres,
      runMetrics_done_filterMap env.metricEnv (startOf env) (endOf env) queries _ res m1 hdone]
    exact List.mem_filterMap.mpr ⟨(nu, q'), hmemnu, by simp [hsucc]⟩

/-- Witness for C8 at concrete inputs: two iterations of the loop over the
    all-skipped environment. -/
theorem c8_witness :
    (runLoop (loopBody (fun _ => skipEnv) ⟨0, 0, 0⟩) 2).length = 2
    ∧ (∀ itRec ∈ runLoop (loopBody (fun _ => skipEnv) ⟨0, 0, 0⟩) 2, itRec.sleptSeconds = 30)
    ∧ runLoop (loopBody (fun _ => skipEnv) ⟨0, 0, 0⟩) 3
        = runLoop (loopBody (fun _ => skipEnv) ⟨0, 0, 0⟩) 2
          ++ [⟨loopBody (fun _ => skipEnv) ⟨0, 0, 0⟩ 2, 30⟩] :=
  c8_loop_never_dies (fun _ => skipEnv) ⟨0, 0, 0⟩ 2

/-- Witness for C9 at concrete inputs: the same cycle with the write
    failing returns the same metrics and summary, with the failure logged. -/
theorem c9_witness :
    analyze_metrics ⟨skipEnv.metricEnv, 0, true⟩ ⟨0, 0, 0⟩
        = .ok ⟨⟨1, 0, 0⟩, "TimeGPT Analysis of Spring Boot Metrics:\n", .wrote⟩
    ∧ analyze_metrics ⟨skipEnv.metricEnv, 0, false⟩ ⟨0, 0, 0⟩
        = .ok ⟨⟨1, 0, 0⟩, "TimeGPT Analysis of Spring Boot Metrics:\n", .failedLogged⟩ :=
  ⟨by decide,
    c9_write_failure_never_fatal skipEnv.metricEnv 0 ⟨0, 0, 0⟩
      ⟨⟨1, 0, 0⟩, "TimeGPT Analysis of Spring Boot Metrics:\n", .wrote⟩ (by decide)⟩

/-- An HTTP response carrying one well-formed series. -/
def goodHttp : HttpOutcome := .status 200 (some ⟨some ⟨some [witSeries]⟩⟩)

/-- A cycle environment in which every query succeeds with the same series,
    the analysis service raises for error_rate, and the other three metrics
    analyze successfully. -/
def svcFailEnv : CycleEnv :=
  ⟨fun name => if name = "error_rate" then ⟨goodHttp, .raised, .ok []⟩
    else ⟨goodHttp, .ok [4], .ok [true, false]⟩, 1000, true⟩

/-- Witness for C7 at concrete inputs: error_rate's service failure leaves
    the latency metric's successful result in the cycle entries. -/
theorem c7_witness :
    (serviceRaised (svcFailEnv.metricEnv "error_rate") = true
      ∧ prepare_timeseries
          (query_prometheus errorRateQuery (startOf svcFailEnv) (endOf svcFailEnv)
            (svcFailEnv.metricEnv "error_rate").http "15s") "error_rate"
          = .series ⟨[fromtimestamp 100, fromtimestamp 115], [2, 3]⟩)
    ∧ ("error_rate" ∉ (cycleResults svcFailEnv).map Prod.fst
        ∧ analyze_metrics svcFailEnv ⟨0, 0, 0⟩
            = analyzeMetricsOver (queries.filter (fun p => p.1 != "error_rate"))
                svcFailEnv ⟨0, 0, 0⟩
        ∧ ∀ (nu q' : String) (r : AnalysisResult), (nu, q') ∈ queries →
            processMetric (svcFailEnv.metricEnv nu) nu q'
              (startOf svcFailEnv) (endOf svcFailEnv) = .success r →
            (nu, r) ∈ cycleResults svcFailEnv) :=
  ⟨⟨by decide, by decide⟩,
    c7_service_failure_does_not_couple svcFailEnv ⟨0, 0, 0⟩ "error_rate" errorRateQuery
      ⟨[fromtimestamp 100, fromtimestamp 115], [2, 3]⟩
      (by decide) (by decide) (by decide) (by decide)⟩

end Monitoring
